import Mathlib

/-!
Verification development for the Task-assistant backend.

The source is a small JavaScript service: an agent pipeline
(classify → branch → extract / advise / save or converse) over an external
completion service, plus a Mongo-backed task store with insert / filtered
list / update-by-id / delete-by-id.  This file gives a shallow embedding of
that code and proves the specification's claims about it.

Modelling conventions:
- The completion service together with the subsequent JSON.parse step is an
  oracle (`Env`): a jsonMode call either fails at the service, fails to
  parse, or yields a parsed JSON value; a plain-text call either fails or
  yields a string.
- JSON numbers are modelled as integers (no claim depends on fractional
  values; the only numeric field, confidence, is never consulted).
- JavaScript Date values are modelled as milliseconds since the Unix epoch
  in a single fixed-offset (UTC) calendar; Invalid Date is a distinguished
  value.  The string parser models the ISO YYYY-MM-DD format the extraction
  prompt mandates (other engine-specific date string formats are out of
  scope).
- Mongoose-level behaviour of the Task schema (required / trim / maxLength
  validation, defaults, _id and createdAt assignment) is modelled in the
  store operations; driver/network failures of the store are not modelled.
-/

namespace TaskAssistant

/-- Parsed JSON values as produced by JSON.parse. -/
inductive Json where
  | null
  | bool (b : Bool)
  | num (n : Int)
  | str (s : String)
  | arr (elems : List Json)
  | obj (fields : List (String × Json))

/-- JavaScript truthiness of a value (used by `if (classification.isTask)`
and by the `x || ''` defaulting in saveTask). -/
def Json.truthy : Json → Bool
  | .null => false
  | .bool b => b
  | .num n => n != 0
  | .str s => s != ""
  | .arr _ => true
  | .obj _ => true

/-- Truthiness of a possibly-undefined value (undefined is falsy). -/
def truthyOpt : Option Json → Bool
  | none => false
  | some j => j.truthy

/-- Property lookup in an object's field list. -/
def lookupField : List (String × Json) → String → Option Json
  | [], _ => none
  | (k, v) :: rest, key => if k = key then some v else lookupField rest key

/-- Property read `j.key` on a non-null value: fields of an object, undefined
(`none`) on primitives and arrays.  (Property access on null throws; callers
branch on null before using this.) -/
def Json.getField : Json → String → Option Json
  | .obj fs, key => lookupField fs key
  | _, _ => none

/-- Property write `obj.key = v`: replaces the binding for `key`.  Field
order is not observable in the model (all reads go through `lookupField`). -/
def setField (fs : List (String × Json)) (key : String) (v : Json) :
    List (String × Json) :=
  (key, v) :: fs.filter (fun p => !(p.1 == key))

/-- The field list a JSON value exposes for named-property reads and writes
in extraction.  Objects expose their fields; arrays are objects too in JS
(named reads give undefined, named writes succeed), modelled as an empty
field list; property writes on null and on primitives throw in strict mode,
so those yield `none`. -/
def Json.objFields? : Json → Option (List (String × Json))
  | .obj fs => some fs
  | .arr _ => some []
  | _ => none

/-- String.prototype.trim (also the mongoose trim setter): strips
whitespace from both ends.  (Structurally recursive so that concrete runs
evaluate inside the kernel.) -/
def jsTrim (s : String) : String :=
  ⟨((s.data.dropWhile Char.isWhitespace).reverse.dropWhile Char.isWhitespace).reverse⟩

/-! ### JavaScript dates -/

/-- A JS Date: either Invalid Date or a timestamp in milliseconds since the
Unix epoch. -/
inductive JsDate where
  | invalid
  | valid (ms : Int)
deriving DecidableEq

def msPerDay : Int := 86400000

/-- Proleptic-Gregorian leap year test. -/
def isLeapYear (y : Int) : Bool := (y % 4 == 0) && (!(y % 100 == 0) || (y % 400 == 0))

def daysInMonth (y : Int) (m : Nat) : Nat :=
  match m with
  | 1 => 31
  | 2 => if isLeapYear y then 29 else 28
  | 3 => 31
  | 4 => 30
  | 5 => 31
  | 6 => 30
  | 7 => 31
  | 8 => 31
  | 9 => 30
  | 10 => 31
  | 11 => 30
  | 12 => 31
  | _ => 0

/-- Days since 1970-01-01 of a civil date (Howard Hinnant's algorithm). -/
def civilToDays (y0 : Int) (m d : Nat) : Int :=
  let y := if m ≤ 2 then y0 - 1 else y0
  let era := y.ediv 400
  let yoe := y - era * 400
  let mp : Int := if 2 < m then (m : Int) - 3 else (m : Int) + 9
  let doy := (153 * mp + 2).ediv 5 + (d : Int) - 1
  let doe := yoe * 365 + yoe.ediv 4 - yoe.ediv 100 + doy
  era * 146097 + doe - 719468

/-- Civil date (year, month, day) of a day count since 1970-01-01. -/
def daysToCivil (z0 : Int) : Int × Int × Int :=
  let z := z0 + 719468
  let era := z.ediv 146097
  let doe := z - era * 146097
  let yoe := (doe - doe.ediv 1460 + doe.ediv 36524 - doe.ediv 146096).ediv 365
  let y := yoe + era * 400
  let doy := doe - (365 * yoe + yoe.ediv 4 - yoe.ediv 100)
  let mp := (5 * doy + 2).ediv 153
  let d := doy - (153 * mp + 2).ediv 5 + 1
  let m := mp + (if mp < 10 then 3 else -9)
  (if m ≤ 2 then y + 1 else y, m, d)

def digitVal (c : Char) : Nat := c.toNat - 48

/-- Parser for the strict ISO "YYYY-MM-DD" date strings the extraction
prompt mandates, as validated by the JS Date ISO parser (month 1–12, day
bounded by the month's length; out-of-range parts give Invalid Date).
Returns the UTC-midnight timestamp in ms. -/
def parseYMD (s : String) : Option Int :=
  match s.data with
  | [y1, y2, y3, y4, h1, m1, m2, h2, d1, d2] =>
    if (h1 == '-') && (h2 == '-') && y1.isDigit && y2.isDigit && y3.isDigit
        && y4.isDigit && m1.isDigit && m2.isDigit && d1.isDigit && d2.isDigit then
      let y : Int := (1000 * digitVal y1 + 100 * digitVal y2 + 10 * digitVal y3 + digitVal y4 : Nat)
      let m := 10 * digitVal m1 + digitVal m2
      let d := 10 * digitVal d1 + digitVal d2
      if (1 ≤ m && m ≤ 12) && (1 ≤ d && d ≤ daysInMonth y m) then
        some (civilToDays y m d * msPerDay)
      else none
    else none
  | _ => none

/-- The effect of new Date(v) on a JSON value or undefined, as used on the
extracted date field: undefined, unparseable strings, objects and arrays
give Invalid Date; null and booleans coerce to small timestamps; numbers
are timestamps. -/
def jsNewDate : Option Json → JsDate
  | none => .invalid
  | some .null => .valid 0
  | some (.bool b) => .valid (if b then 1 else 0)
  | some (.num n) => .valid n
  | some (.str s) =>
    match parseYMD s with
    | some ms => .valid ms
    | none => .invalid
  | some (.obj _) => .invalid
  | some (.arr _) => .invalid

/-! ### Task store (src/models/Task.js plus the Mongo-backed tools) -/

/-- A persisted task document (the Task schema): `_id` and `createdAt` are
assigned at insertion, `completed` defaults to false.  `date` holds the
timestamp of a valid Date (insert and update reject Invalid Date). -/
structure TaskRecord where
  id : Nat
  title : String
  date : Int
  advice : String
  notes : String
  completed : Bool
  createdAt : Int
deriving DecidableEq

/-- The task collection: the stored documents plus the next fresh id. -/
structure Store where
  recs : List TaskRecord
  nextId : Nat
deriving DecidableEq

/-- Mongoose string cast of a defined JSON value: strings pass through,
numbers and booleans stringify, objects and arrays raise a CastError
(`none`). -/
def castStringJs : Json → Option String
  | .str s => some s
  | .num n => some (toString n)
  | .bool b => some (if b then "true" else "false")
  | .null => none
  | .obj _ => none
  | .arr _ => none

/-- Cast of the title field for the required check: absent and null values
survive the cast as "no value" (`some none`, so that required fails),
castable values become strings, objects and arrays raise a CastError. -/
def castTitleField : Option Json → Option (Option String)
  | none => some none
  | some .null => some none
  | some (.str s) => some (some s)
  | some (.num n) => some (some (toString n))
  | some (.bool b) => some (some (if b then "true" else "false"))
  | some (.obj _) => none
  | some (.arr _) => none

/-- The `x || ''` defaulting applied to notes and advice in saveTask:
falsy or absent values become the empty string. -/
def jsOrEmpty (v : Option Json) : Json :=
  match v with
  | some j => if j.truthy then j else .str ""
  | none => .str ""

/-- The task info handed from extraction to the later pipeline steps: the
parsed JSON object's fields, plus the Date that overwrote its date field
(`taskInfo.date = new Date(taskInfo.date)`).  The original date entry in
`fields` is shadowed and never read again. -/
structure ExtractedInfo where
  fields : List (String × Json)
  date : JsDate

def saveErrorMessage : String := "Failed to save task to database"

/-- Tool 2 (saveTask): builds a Task document from the draft's title, date,
notes and advice fields (notes and advice defaulted by `|| ''`), validates
it against the schema (title required and trimmed with maxLength 200, date
required and valid), and inserts it.  Any cast or validation failure is
caught and rethrown as the generic save error.  On success returns the
saved document and the extended store. -/
def saveTask (nowMs : Int) (st : Store) (info : ExtractedInfo) :
    Except String (TaskRecord × Store) :=
  match info.date with
  | .invalid => .error saveErrorMessage
  | .valid dateMs =>
    match castTitleField (lookupField info.fields "title") with
    | none => .error saveErrorMessage
    | some none => .error saveErrorMessage
    | some (some rawTitle) =>
      let t := jsTrim rawTitle
      if t = "" then .error saveErrorMessage
      else if 200 < t.length then .error saveErrorMessage
      else
        match castStringJs (jsOrEmpty (lookupField info.fields "notes")),
            castStringJs (jsOrEmpty (lookupField info.fields "advice")) with
        | some notes, some advice =>
          let r : TaskRecord := ⟨st.nextId, t, dateMs, advice, notes, false, nowMs⟩
          .ok (r, ⟨st.recs ++ [r], st.nextId + 1⟩)
        | some _, none => .error saveErrorMessage
        | none, _ => .error saveErrorMessage

/-- Filters accepted by getTasks, already converted to their query types
(the route turns query-string parameters into these). -/
structure TaskFilters where
  completed : Option Bool
  dateFrom : Option Int
  dateTo : Option Int

/-- The Mongo query built by getTasks: each supplied filter becomes a
conjunct (completed equality, date $gte, date $lte). -/
def matchesFilters (f : TaskFilters) (r : TaskRecord) : Bool :=
  (match f.completed with
   | some c => r.completed == c
   | none => true) &&
  (match f.dateFrom with
   | some d => decide (d ≤ r.date)
   | none => true) &&
  (match f.dateTo with
   | some d => decide (r.date ≤ d)
   | none => true)

/-- The sort order `.sort({date: 1, createdAt: -1})`: date ascending,
then creation time descending. -/
def TaskRecOrder (a b : TaskRecord) : Prop :=
  a.date < b.date ∨ (a.date = b.date ∧ b.createdAt ≤ a.createdAt)

instance : DecidableRel TaskRecOrder := fun a b => by
  unfold TaskRecOrder; infer_instance

/-- Tool 3 (getTasks): returns the documents matching the query, sorted by
date ascending then creation time descending. -/
def getTasks (f : TaskFilters) (st : Store) : List TaskRecord :=
  List.insertionSort TaskRecOrder (st.recs.filter (matchesFilters f))

/-- The update payload of updateTask, restricted (by the PATCH route) to
the completed / title / date / notes paths, at their schema types. -/
structure TaskUpdates where
  completed : Option Bool
  title : Option String
  date : Option JsDate
  notes : Option String
deriving DecidableEq

/-- The update validators run by findByIdAndUpdate with runValidators: a
supplied title must be non-empty after trimming and within maxLength, a
supplied date must be a valid Date. -/
def validUpdates (u : TaskUpdates) : Bool :=
  (match u.title with
   | some s => jsTrim s != "" && (jsTrim s).length ≤ 200
   | none => true) &&
  (match u.date with
   | some (.valid _) => true
   | some .invalid => false
   | none => true)

/-- Apply an update payload to a document (title trimmed by the schema
setter). -/
def applyUpdates (r : TaskRecord) (u : TaskUpdates) : TaskRecord :=
  ⟨r.id,
   match u.title with
   | some s => jsTrim s
   | none => r.title,
   match u.date with
   | some (.valid ms) => ms
   | some .invalid => r.date
   | none => r.date,
   r.advice,
   match u.notes with
   | some s => s
   | none => r.notes,
   match u.completed with
   | some b => b
   | none => r.completed,
   r.createdAt⟩

/-- The body of updateTask's try block: findByIdAndUpdate (validators
first, then the id lookup), throwing "Task not found" when the id is
absent.  Returns the updated document (new: true). -/
def updateTaskInner (st : Store) (id : Nat) (u : TaskUpdates) :
    Except String (TaskRecord × Store) :=
  if validUpdates u then
    match st.recs.find? (fun r => r.id == id) with
    | none => .error "Task not found"
    | some r =>
      .ok (applyUpdates r u,
           ⟨st.recs.map (fun x => if x.id == id then applyUpdates x u else x), st.nextId⟩)
  else .error "Validation failed"

/-- Tool 5 (updateTask): the try/catch wrapper — every inner failure,
including the "Task not found" condition, is caught and rethrown as the
generic "Failed to update task" error. -/
def updateTask (st : Store) (id : Nat) (u : TaskUpdates) :
    Except String (TaskRecord × Store) :=
  match updateTaskInner st id u with
  | .ok x => .ok x
  | .error _ => .error "Failed to update task"

/-- The body of deleteTask's try block: findByIdAndDelete, throwing
"Task not found" when the id is absent. -/
def deleteTaskInner (st : Store) (id : Nat) : Except String (Bool × Store) :=
  match st.recs.find? (fun r => r.id == id) with
  | none => .error "Task not found"
  | some _ => .ok (true, ⟨st.recs.filter (fun x => !(x.id == id)), st.nextId⟩)

/-- Tool 6 (deleteTask): the try/catch wrapper — every inner failure,
including "Task not found", is rethrown as the generic
"Failed to delete task" error. -/
def deleteTask (st : Store) (id : Nat) : Except String (Bool × Store) :=
  match deleteTaskInner st id with
  | .ok x => .ok x
  | .error _ => .error "Failed to delete task"

/-! ### The agent (src/agent/Agent.js and src/agent/tools.js) -/

/-- Outcome of a jsonMode completion call followed by JSON.parse: the
service call threw, the returned string failed to parse, or it parsed to a
JSON value. -/
inductive JsonResult where
  | svcErr
  | parseErr
  | ok (j : Json)

/-- One `process` invocation's view of the outside world: the outcome of
each completion call the pipeline may make, and the current time (used for
the extraction prompt, the createdAt default and date formatting).
`adviceResp` and `convResp` are plain-text calls: `none` means the call
threw, `some s` that it returned `s`. -/
structure Env where
  classifyResp : JsonResult
  extractResp : JsonResult
  adviceResp : Option String
  convResp : Option String
  nowMs : Int

/-- Tool calls observable from one `process` invocation (`storeInsert` is
recorded only when a document is actually persisted). -/
inductive ToolCall where
  | extract
  | advice
  | storeInsert
  | converse
deriving DecidableEq

/-- The projected task object returned to the caller on the task branch:
id, title, date, notes and advice of the saved document. -/
structure RespTask where
  id : Nat
  title : String
  date : Int
  notes : String
  advice : String
deriving DecidableEq

/-- The three response shapes process can return: the task confirmation
(isTask: true with a task object), the conversational reply (isTask:
false), and the error variant (error: true). -/
inductive AgentResponse where
  | task (message : String) (t : RespTask)
  | conv (message : String)
  | failure (message : String)
deriving DecidableEq

def apologyMessage : String :=
  "I apologize, but I encountered an error processing your request. Please try again."

def fallbackGreeting : String :=
  "Hello! I'm your task assistant. I can help you remember things and manage your tasks. Try saying something like 'Remind me to study tomorrow'!"

def fallbackAdvice : String :=
  "Good luck with your task! Break it down into smaller steps and tackle them one at a time."

def extractionErrorMessage : String := "Failed to extract task information"

/-- classify: sends the classification prompt in jsonMode and parses the
reply; any failure in the try block (service error or parse error) is
caught and defaults to the object with isTask false, confidence 0. -/
def classify (e : Env) : Json :=
  match e.classifyResp with
  | .svcErr => Json.obj [("isTask", Json.bool false), ("confidence", Json.num 0)]
  | .parseErr => Json.obj [("isTask", Json.bool false), ("confidence", Json.num 0)]
  | .ok j => j

/-- The branch test `if (classification.isTask)` in process: property
access on a null classification throws (caught by process's own
try/catch, `none`); otherwise the branch is the truthiness of the isTask
field. -/
def branchDecision (e : Env) : Option Bool :=
  match classify e with
  | .null => none
  | j => some (truthyOpt (j.getField "isTask"))

/-- Tool 1 (extractTaskInfo): sends the extraction prompt in jsonMode,
parses the reply, and overwrites the date field with `new Date(...)`.
A service error, a parse error, or a parsed value that is not an object
(property write throws in strict mode) is caught and rethrown as the
generic extraction error. -/
def extractTaskInfo (e : Env) : Except String ExtractedInfo :=
  match e.extractResp with
  | .svcErr => .error extractionErrorMessage
  | .parseErr => .error extractionErrorMessage
  | .ok j =>
    match j.objFields? with
    | none => .error extractionErrorMessage
    | some fs => .ok ⟨fs, jsNewDate (lookupField fs "date")⟩

/-- Tool 4 (generateAdvice): sends the advice prompt; on success returns
the trimmed reply, on failure returns the fixed fallback advice string. -/
def generateAdvice (e : Env) : String :=
  match e.adviceResp with
  | some s => jsTrim s
  | none => fallbackAdvice

/-- handleConversation: sends the conversational prompt; on success
returns the reply with isTask false, on failure the fixed fallback
greeting with isTask false (never an error). -/
def handleConversation (e : Env) : AgentResponse :=
  match e.convResp with
  | some s => .conv s
  | none => .conv fallbackGreeting

/-- formatDate: normalizes both the task date and "now" to midnight in
the (single-offset) local calendar; equal to today gives "today", to
today plus one day "tomorrow", otherwise the full
weekday/month/day/year rendering. -/
def weekdayNames : List String :=
  ["Sunday", "Monday", "Tuesday", "Wednesday", "Thursday", "Friday", "Saturday"]

def monthNames : List String :=
  ["January", "February", "March", "April", "May", "June", "July", "August",
   "September", "October", "November", "December"]

/-- The en-US long rendering of toLocaleDateString with weekday, month,
day and year, e.g. "Sunday, February 1, 2026". -/
def renderLongDate (day : Int) : String :=
  let c := daysToCivil day
  let wd := ((day + 4).emod 7).toNat
  (weekdayNames.getD wd "") ++ ", " ++ (monthNames.getD (c.2.1.toNat - 1) "")
    ++ " " ++ toString c.2.2 ++ ", " ++ toString c.1

def formatDate (dateMs nowMs : Int) : String :=
  let today := nowMs.ediv msPerDay
  let taskDay := dateMs.ediv msPerDay
  if taskDay = today then "today"
  else if taskDay = today + 1 then "tomorrow"
  else renderLongDate taskDay

/-- The confirmation message composed on the task branch. -/
def confirmMessage (title formatted advice : String) : String :=
  "✓ I've added \"" ++ title ++ "\" to your tasks for " ++ formatted
    ++ ".\n\n" ++ advice

/-- handleTask: extraction, then advice generation, then `taskInfo.advice
= advice`, then saveTask; composes the confirmation response from the
saved document.  Errors of extraction or persistence are rethrown to
process (the trace records which tools ran). -/
def handleTask (e : Env) (st : Store) :
    Except String AgentResponse × Store × List ToolCall :=
  match extractTaskInfo e with
  | .error msg => (.error msg, st, [.extract])
  | .ok info =>
    let advice := generateAdvice e
    let info2 : ExtractedInfo := ⟨setField info.fields "advice" (Json.str advice), info.date⟩
    match saveTask e.nowMs st info2 with
    | .error msg => (.error msg, st, [.extract, .advice])
    | .ok (saved, st') =>
      (.ok (.task (confirmMessage saved.title (formatDate saved.date e.nowMs) advice)
              ⟨saved.id, saved.title, saved.date, saved.notes, saved.advice⟩),
       st', [.extract, .advice, .storeInsert])

/-- process: classify, branch on the isTask truthiness (throwing on a
null classification), and run the task or conversation branch; any error
escaping a branch is caught by the outermost try/catch and mapped to the
generic apology response with error: true. -/
def process (e : Env) (st : Store) : AgentResponse × Store × List ToolCall :=
  match branchDecision e with
  | none => (.failure apologyMessage, st, [])
  | some true =>
    match handleTask e st with
    | (.ok r, st', tr) => (r, st', tr)
    | (.error _, _, tr) => (.failure apologyMessage, st, tr)
  | some false => (handleConversation e, st, [.converse])

/-! ### Helper lemmas -/

/-- The documents of a well-formed store: every persisted task satisfies
the schema's title constraints (its date is a valid timestamp by
construction). -/
def GoodStore (st : Store) : Prop :=
  ∀ r ∈ st.recs, r.title ≠ "" ∧ r.title.length ≤ 200

lemma lookupField_filter_ne (fs : List (String × Json)) (k k2 : String)
    (h : k2 ≠ k) :
    lookupField (fs.filter (fun p => !(p.1 == k))) k2 = lookupField fs k2 := by
  induction fs with
  | nil => rfl
  | cons p rest ih =>
    by_cases hp : p.1 = k
    · have hne : (k = k2) = False := eq_false (fun hh => h hh.symm)
      simp [List.filter_cons, hp, lookupField, hne, ih]
    · simp [List.filter_cons, hp, lookupField, ih]

lemma lookupField_setField (fs : List (String × Json)) (k : String) (v : Json)
    (k2 : String) :
    lookupField (setField fs k v) k2 = if k2 = k then some v else lookupField fs k2 := by
  unfold setField
  by_cases h : k2 = k
  · simp [lookupField, h]
  · have : ¬ k = k2 := fun hh => h hh.symm
    simp [lookupField, this, h, lookupField_filter_ne fs k k2 h]

/-- Everything saveTask guarantees about a successful insert. -/
lemma saveTask_ok_spec {nowMs : Int} {st : Store} {info : ExtractedInfo}
    {rec : TaskRecord} {st' : Store}
    (h : saveTask nowMs st info = .ok (rec, st')) :
    st'.recs = st.recs ++ [rec] ∧ st'.nextId = st.nextId + 1 ∧
    rec.id = st.nextId ∧ rec.createdAt = nowMs ∧ rec.completed = false ∧
    rec.title ≠ "" ∧ rec.title.length ≤ 200 ∧
    info.date = .valid rec.date ∧
    castStringJs (jsOrEmpty (lookupField info.fields "notes")) = some rec.notes ∧
    castStringJs (jsOrEmpty (lookupField info.fields "advice")) = some rec.advice := by
  unfold saveTask at h
  split at h
  · exact absurd h (by simp)
  next dateMs hdate =>
    split at h
    · exact absurd h (by simp)
    · exact absurd h (by simp)
    next rawTitle hcast =>
      dsimp only at h
      split_ifs at h with hemp hlen
      split at h
      next notesVal adviceVal hnotes hadvice =>
        obtain ⟨h1, h2⟩ := by simpa using h
        subst h1; subst h2
        exact ⟨rfl, rfl, rfl, rfl, rfl, hemp, by dsimp only; omega, hdate, hnotes, hadvice⟩
      · exact absurd h (by simp)
      · exact absurd h (by simp)

/-- saveTask only reads the title, notes and advice fields of the draft. -/
lemma saveTask_fields_congr (nowMs : Int) (st : Store)
    (fs1 fs2 : List (String × Json)) (d : JsDate)
    (ht : lookupField fs1 "title" = lookupField fs2 "title")
    (hn : lookupField fs1 "notes" = lookupField fs2 "notes")
    (ha : lookupField fs1 "advice" = lookupField fs2 "advice") :
    saveTask nowMs st ⟨fs1, d⟩ = saveTask nowMs st ⟨fs2, d⟩ := by
  unfold saveTask
  dsimp only
  rw [ht, hn, ha]

instance : IsTotal TaskRecord TaskRecOrder :=
  ⟨by intro a b; unfold TaskRecOrder; omega⟩

instance : IsTrans TaskRecord TaskRecOrder :=
  ⟨by intro a b c hab hbc; unfold TaskRecOrder at hab hbc ⊢; omega⟩

/-- A successful updateTask comes from a successful inner call. -/
lemma updateTask_ok_inner {st : Store} {id : Nat} {u : TaskUpdates}
    {rec : TaskRecord} {st' : Store}
    (h : updateTask st id u = .ok (rec, st')) :
    updateTaskInner st id u = .ok (rec, st') := by
  unfold updateTask at h
  split at h
  · next x hx => cases h; exact hx
  · cases h

/-- What a successful inner update guarantees. -/
lemma updateTaskInner_ok_spec {st : Store} {id : Nat} {u : TaskUpdates}
    {rec : TaskRecord} {st' : Store}
    (h : updateTaskInner st id u = .ok (rec, st')) :
    validUpdates u = true ∧
    st'.recs = st.recs.map (fun x => if x.id == id then applyUpdates x u else x) ∧
    ∃ r, st.recs.find? (fun r => r.id == id) = some r ∧ rec = applyUpdates r u := by
  unfold updateTaskInner at h
  split_ifs at h with hv
  split at h
  · cases h
  next r hr =>
    obtain ⟨h1, h2⟩ := by simpa using h
    subst h1; subst h2
    exact ⟨hv, by simp, r, hr, rfl⟩

/-- The update validators preserve the title constraints. -/
lemma applyUpdates_title {r : TaskRecord} {u : TaskUpdates}
    (hv : validUpdates u = true) (ht : r.title ≠ "" ∧ r.title.length ≤ 200) :
    (applyUpdates r u).title ≠ "" ∧ (applyUpdates r u).title.length ≤ 200 := by
  unfold validUpdates at hv
  unfold applyUpdates
  cases hu : u.title with
  | none => simpa using ht
  | some s =>
    rw [hu] at hv
    simp only [Bool.and_eq_true] at hv
    obtain ⟨hs, _⟩ := hv
    simp only [Bool.and_eq_true, bne_iff_ne, ne_eq, decide_eq_true_eq] at hs
    simpa using hs

/-! ### Claim theorems -/

/-- C1: for every message classified as a task, if the extraction step
fails for any reason (completion-service error, malformed JSON, or a bad
date in the extracted JSON, which surfaces at validation before the store
insert), process returns the generic apology response with error: true,
the store is unchanged, and no insert is performed. -/
theorem claim1_extraction_failure_aborts (e : Env) (st : Store)
    (hb : branchDecision e = some true)
    (hfail : (∃ msg, extractTaskInfo e = .error msg) ∨
             (∃ info, extractTaskInfo e = .ok info ∧ info.date = .invalid)) :
    (process e st).1 = .failure apologyMessage ∧
    (process e st).2.1 = st ∧
    ToolCall.storeInsert ∉ (process e st).2.2 := by
  unfold process
  rw [hb]
  rcases hfail with ⟨msg, hx⟩ | ⟨info, hx, hd⟩
  · unfold handleTask
    rw [hx]
    simp
  · unfold handleTask
    rw [hx]
    dsimp only
    have hsave : saveTask e.nowMs st
        ⟨setField info.fields "advice" (Json.str (generateAdvice e)), info.date⟩
        = .error saveErrorMessage := by
      unfold saveTask
      dsimp only
      rw [hd]
    rw [hsave]
    simp

/-- A completion service run whose classification answer is a task but
whose extraction answer is not valid JSON. -/
def envExtractParseErr : Env :=
  ⟨.ok (Json.obj [("isTask", Json.bool true)]), .parseErr, none, none, 0⟩

/-- C1 witness: a concrete run with a malformed extraction reply. -/
theorem claim1_witness :
    branchDecision envExtractParseErr = some true ∧
    (process envExtractParseErr ⟨[], 0⟩).1 = .failure apologyMessage ∧
    (process envExtractParseErr ⟨[], 0⟩).2.1 = ⟨[], 0⟩ ∧
    ToolCall.storeInsert ∉ (process envExtractParseErr ⟨[], 0⟩).2.2 :=
  ⟨by decide,
   claim1_extraction_failure_aborts envExtractParseErr ⟨[], 0⟩ (by decide)
     (Or.inl ⟨extractionErrorMessage, rfl⟩)⟩

/-- C2 counterexample: on an empty store, updating id 0 surfaces the
generic "Failed to update task" error, not the NotFound condition. -/
theorem claim2_counterexample :
    updateTask ⟨[], 0⟩ 0 ⟨none, none, none, none⟩ = .error "Failed to update task" ∧
    updateTask ⟨[], 0⟩ 0 ⟨none, none, none, none⟩ ≠ .error "Task not found" := by
  constructor
  · rfl
  · intro h
    rw [show updateTask ⟨[], 0⟩ 0 ⟨none, none, none, none⟩
        = Except.error "Failed to update task" from rfl] at h
    injection h with h'
    exact absurd h' (by decide)

/-- C2 amended: on a nonexistent id the NotFound condition is raised
inside updateTask (and deleteTask) but is caught and rethrown as the
generic persistence error, so the caller receives "Failed to update task"
(resp. "Failed to delete task"), indistinguishable from any other update
failure. -/
theorem claim2_update_missing_id_generic (st : Store) (id : Nat) (u : TaskUpdates)
    (habs : st.recs.find? (fun r => r.id == id) = none) :
    (validUpdates u = true → updateTaskInner st id u = .error "Task not found") ∧
    updateTask st id u = .error "Failed to update task" ∧
    deleteTaskInner st id = .error "Task not found" ∧
    deleteTask st id = .error "Failed to delete task" := by
  have hinner : ∀ hv : validUpdates u = true,
      updateTaskInner st id u = .error "Task not found" := by
    intro hv
    unfold updateTaskInner
    rw [if_pos hv, habs]
  refine ⟨hinner, ?_, ?_, ?_⟩
  · unfold updateTask
    cases hv : validUpdates u with
    | true => rw [hinner hv]
    | false =>
      have : updateTaskInner st id u = .error "Validation failed" := by
        unfold updateTaskInner
        rw [if_neg (by simp [hv])]
      rw [this]
  · unfold deleteTaskInner
    rw [habs]
  · unfold deleteTask deleteTaskInner
    rw [habs]

/-- C2 witness: the amended behaviour on a concrete empty store. -/
theorem claim2_witness :
    updateTaskInner ⟨[], 0⟩ 0 ⟨none, none, none, none⟩ = .error "Task not found" ∧
    updateTask ⟨[], 0⟩ 0 ⟨none, none, none, none⟩ = .error "Failed to update task" ∧
    deleteTaskInner ⟨[], 0⟩ 0 = .error "Task not found" ∧
    deleteTask ⟨[], 0⟩ 0 = .error "Failed to delete task" :=
  have h := claim2_update_missing_id_generic ⟨[], 0⟩ 0 ⟨none, none, none, none⟩ rfl
  ⟨h.1 rfl, h.2.1, h.2.2.1, h.2.2.2⟩

/-- C6: the date label is "today" when the task date normalizes to the
same local day as now, "tomorrow" for the next day, and otherwise the
full weekday/month/day/year rendering; in particular, with today
2026-01-13 a task dated 2026-02-01 renders as "Sunday, February 1, 2026",
2026-01-13 as "today" and 2026-01-14 as "tomorrow". -/
theorem claim6_formatDate_labels (dateMs nowMs : Int) :
    (dateMs.ediv msPerDay = nowMs.ediv msPerDay → formatDate dateMs nowMs = "today") ∧
    (dateMs.ediv msPerDay = nowMs.ediv msPerDay + 1 → formatDate dateMs nowMs = "tomorrow") ∧
    (dateMs.ediv msPerDay ≠ nowMs.ediv msPerDay →
     dateMs.ediv msPerDay ≠ nowMs.ediv msPerDay + 1 →
     formatDate dateMs nowMs = renderLongDate (dateMs.ediv msPerDay)) ∧
    formatDate (civilToDays 2026 2 1 * msPerDay) (civilToDays 2026 1 13 * msPerDay)
      = "Sunday, February 1, 2026" ∧
    formatDate (civilToDays 2026 1 13 * msPerDay) (civilToDays 2026 1 13 * msPerDay)
      = "today" ∧
    formatDate (civilToDays 2026 1 14 * msPerDay) (civilToDays 2026 1 13 * msPerDay)
      = "tomorrow" := by
  refine ⟨?_, ?_, ?_, by decide, by decide, by decide⟩
  · intro h
    unfold formatDate
    dsimp only
    rw [h, if_pos rfl]
  · intro h
    unfold formatDate
    dsimp only
    rw [h, if_neg (by omega), if_pos rfl]
  · intro h1 h2
    unfold formatDate
    dsimp only
    rw [if_neg h1, if_neg h2]

/-- C6 witness: the labelling applied at a concrete pair of timestamps. -/
theorem claim6_witness : formatDate 86400000 86400050 = "today" :=
  (claim6_formatDate_labels 86400000 86400050).1 (by decide)

/-- What process returns whenever the task branch runs to a successful
save (whatever the advice call did). -/
lemma process_task_success
    (e : Env) (st : Store) (j : Json) (fs : List (String × Json))
    (rec : TaskRecord) (st' : Store)
    (hb : branchDecision e = some true)
    (hx : e.extractResp = .ok j) (hf : j.objFields? = some fs)
    (hsave : saveTask e.nowMs st
        ⟨setField fs "advice" (Json.str (generateAdvice e)), jsNewDate (lookupField fs "date")⟩
        = .ok (rec, st')) :
    process e st =
      (.task (confirmMessage rec.title (formatDate rec.date e.nowMs) (generateAdvice e))
             ⟨rec.id, rec.title, rec.date, rec.notes, rec.advice⟩,
       st', [.extract, .advice, .storeInsert]) ∧
    st'.recs = st.recs ++ [rec] := by
  have hex : extractTaskInfo e = .ok ⟨fs, jsNewDate (lookupField fs "date")⟩ := by
    unfold extractTaskInfo
    rw [hx]
    dsimp only
    rw [hf]
  unfold process
  rw [hb]
  unfold handleTask
  rw [hex]
  dsimp only
  rw [hsave]
  exact ⟨rfl, (saveTask_ok_spec hsave).1⟩

/-- C3: when classification takes the task branch and extraction, advice
and persistence all succeed, process returns isTask: true together with a
task object whose title, date, notes and advice equal those of the record
appended to the store. -/
theorem claim3_success_response_matches_persisted
    (e : Env) (st : Store) (j : Json) (fs : List (String × Json))
    (rec : TaskRecord) (st' : Store)
    (hb : branchDecision e = some true)
    (hx : e.extractResp = .ok j) (hf : j.objFields? = some fs)
    (hadv : ∃ a, e.adviceResp = some a)
    (hsave : saveTask e.nowMs st
        ⟨setField fs "advice" (Json.str (generateAdvice e)), jsNewDate (lookupField fs "date")⟩
        = .ok (rec, st')) :
    process e st =
      (.task (confirmMessage rec.title (formatDate rec.date e.nowMs) (generateAdvice e))
             ⟨rec.id, rec.title, rec.date, rec.notes, rec.advice⟩,
       st', [.extract, .advice, .storeInsert]) ∧
    st'.recs = st.recs ++ [rec] :=
  process_task_success e st j fs rec st' hb hx hf hsave

/-- A fully successful concrete completion-service run for the task
branch. -/
def envHappyPath : Env :=
  ⟨.ok (Json.obj [("isTask", Json.bool true), ("confidence", Json.num 1)]),
   .ok (Json.obj [("title", Json.str "Study networking"),
                  ("date", Json.str "2026-01-14"),
                  ("notes", Json.str "User wants tips")]),
   some "1. Do it", some "hi", 1768300000000⟩

/-- The record envHappyPath persists into an empty store. -/
def happyRecord : TaskRecord :=
  ⟨0, "Study networking", 1768348800000, "1. Do it", "User wants tips", false, 1768300000000⟩

/-- C3 witness: the happy path evaluated on a concrete run. -/
theorem claim3_witness :
    process envHappyPath ⟨[], 0⟩ =
      (.task (confirmMessage "Study networking" "tomorrow" "1. Do it")
             ⟨0, "Study networking", 1768348800000, "User wants tips", "1. Do it"⟩,
       ⟨[happyRecord], 1⟩, [.extract, .advice, .storeInsert]) ∧
    (⟨[happyRecord], 1⟩ : Store).recs = (⟨[], 0⟩ : Store).recs ++ [happyRecord] := by
  have h := claim3_success_response_matches_persisted envHappyPath ⟨[], 0⟩
    (Json.obj [("title", Json.str "Study networking"),
               ("date", Json.str "2026-01-14"),
               ("notes", Json.str "User wants tips")])
    [("title", Json.str "Study networking"),
     ("date", Json.str "2026-01-14"),
     ("notes", Json.str "User wants tips")]
    happyRecord ⟨[happyRecord], 1⟩ (by decide) rfl rfl ⟨"1. Do it", rfl⟩ (by rfl)
  exact ⟨by rw [h.1]; rfl, h.2⟩

/-- C4: when extraction and persistence succeed but the advice call
fails, process still returns isTask: true, the record is persisted, and
both the returned and the persisted advice equal the fixed fallback
advice string. -/
theorem claim4_advice_failure_fallback
    (e : Env) (st : Store) (j : Json) (fs : List (String × Json))
    (rec : TaskRecord) (st' : Store)
    (hb : branchDecision e = some true)
    (hx : e.extractResp = .ok j) (hf : j.objFields? = some fs)
    (hadv : e.adviceResp = none)
    (hsave : saveTask e.nowMs st
        ⟨setField fs "advice" (Json.str (generateAdvice e)), jsNewDate (lookupField fs "date")⟩
        = .ok (rec, st')) :
    process e st =
      (.task (confirmMessage rec.title (formatDate rec.date e.nowMs) fallbackAdvice)
             ⟨rec.id, rec.title, rec.date, rec.notes, rec.advice⟩,
       st', [.extract, .advice, .storeInsert]) ∧
    rec.advice = fallbackAdvice ∧
    st'.recs = st.recs ++ [rec] := by
  have hgen : generateAdvice e = fallbackAdvice := by
    unfold generateAdvice
    rw [hadv]
  have hmain := process_task_success e st j fs rec st' hb hx hf hsave
  have hAdvEq : rec.advice = fallbackAdvice := by
    have hspec := (saveTask_ok_spec hsave).2.2.2.2.2.2.2.2.2
    dsimp only at hspec
    rw [lookupField_setField, if_pos rfl, hgen] at hspec
    rw [show castStringJs (jsOrEmpty (some (Json.str fallbackAdvice)))
        = some fallbackAdvice from by decide] at hspec
    exact (Option.some.inj hspec).symm
  refine ⟨?_, hAdvEq, hmain.2⟩
  rw [hmain.1, hgen]

/-- A concrete run in which the task-branch advice call fails while
everything else succeeds. -/
def envAdviceFails : Env :=
  ⟨.ok (Json.obj [("isTask", Json.bool true)]),
   .ok (Json.obj [("title", Json.str "Study networking"),
                  ("date", Json.str "2026-01-14")]),
   none, none, 1768300000000⟩

/-- The record envAdviceFails persists into an empty store. -/
def fallbackRecord : TaskRecord :=
  ⟨0, "Study networking", 1768348800000, fallbackAdvice, "", false, 1768300000000⟩

/-- C4 witness: the advice-failure path evaluated on a concrete run. -/
theorem claim4_witness :
    process envAdviceFails ⟨[], 0⟩ =
      (.task (confirmMessage "Study networking" "tomorrow" fallbackAdvice)
             ⟨0, "Study networking", 1768348800000, "", fallbackAdvice⟩,
       ⟨[fallbackRecord], 1⟩, [.extract, .advice, .storeInsert]) ∧
    fallbackRecord.advice = fallbackAdvice ∧
    (⟨[fallbackRecord], 1⟩ : Store).recs = (⟨[], 0⟩ : Store).recs ++ [fallbackRecord] := by
  have h := claim4_advice_failure_fallback envAdviceFails ⟨[], 0⟩
    (Json.obj [("title", Json.str "Study networking"), ("date", Json.str "2026-01-14")])
    [("title", Json.str "Study networking"), ("date", Json.str "2026-01-14")]
    fallbackRecord ⟨[fallbackRecord], 1⟩ (by decide) rfl rfl rfl (by rfl)
  exact ⟨by rw [h.1]; rfl, h.2.1, h.2.2⟩

/-- C5 counterexample: a classification reply that parses to JSON null is
a completion-service behaviour under which process does not take the task
branch and yet returns the error variant (the property read on null throws
inside process and is caught by its outermost handler). -/
theorem claim5_counterexample :
    branchDecision ⟨.ok Json.null, .svcErr, none, some "hello", 0⟩ ≠ some true ∧
    (process ⟨.ok Json.null, .svcErr, none, some "hello", 0⟩ ⟨[], 0⟩).1
      = .failure apologyMessage := ⟨by decide, rfl⟩

/-- C5 amended: unless the classification reply parses to JSON null (in
which case the property read on null throws and process returns the
generic apology with error: true), taking the non-task branch never
produces the error variant: a classification failure (service error or
unparseable JSON) defaults to isTask false / confidence 0 and routes
conversationally, a successful conversational call is returned as is with
isTask false, and a failed one yields the fixed fallback greeting with
isTask false. -/
theorem claim5_non_task_branch_no_error (e : Env) (st : Store) :
    ((e.classifyResp = .svcErr ∨ e.classifyResp = .parseErr) →
       classify e = Json.obj [("isTask", Json.bool false), ("confidence", Json.num 0)] ∧
       branchDecision e = some false) ∧
    (branchDecision e = some false →
       (process e st).2.1 = st ∧
       (∀ m, (process e st).1 ≠ .failure m) ∧
       (∀ s, e.convResp = some s → process e st = (.conv s, st, [.converse])) ∧
       (e.convResp = none → process e st = (.conv fallbackGreeting, st, [.converse]))) := by
  constructor
  · intro hc
    have hcl : classify e
        = Json.obj [("isTask", Json.bool false), ("confidence", Json.num 0)] := by
      rcases hc with hc | hc <;> (unfold classify; rw [hc])
    refine ⟨hcl, ?_⟩
    unfold branchDecision
    rw [hcl]
    decide
  · intro hb
    unfold process
    rw [hb]
    refine ⟨rfl, fun m => ?_, fun s hs => ?_, fun hn => ?_⟩
    · unfold handleConversation
      cases hcv : e.convResp <;> simp
    · unfold handleConversation
      rw [hs]
    · unfold handleConversation
      rw [hn]

/-- C5 witness: the amended behaviour on a concrete failing
classification followed by a failing conversational call. -/
theorem claim5_witness :
    classify ⟨.svcErr, .svcErr, none, none, 0⟩
      = Json.obj [("isTask", Json.bool false), ("confidence", Json.num 0)] ∧
    process ⟨.svcErr, .svcErr, none, none, 0⟩ ⟨[], 0⟩
      = (.conv fallbackGreeting, ⟨[], 0⟩, [.converse]) :=
  have h := claim5_non_task_branch_no_error ⟨.svcErr, .svcErr, none, none, 0⟩ ⟨[], 0⟩
  ⟨(h.1 (Or.inl rfl)).1, (h.2 (h.1 (Or.inl rfl)).2).2.2.2 rfl⟩

/-- C7: whenever the non-task branch is taken, process returns isTask:
false, the store is unchanged, and neither extraction nor advice
generation nor persistence is invoked. -/
theorem claim7_non_task_frame (e : Env) (st : Store)
    (hb : branchDecision e = some false) :
    process e st = (handleConversation e, st, [.converse]) ∧
    (process e st).2.1 = st ∧
    ToolCall.extract ∉ (process e st).2.2 ∧
    ToolCall.advice ∉ (process e st).2.2 ∧
    ToolCall.storeInsert ∉ (process e st).2.2 ∧
    (∃ m, (process e st).1 = .conv m) := by
  have hp : process e st = (handleConversation e, st, [.converse]) := by
    unfold process
    rw [hb]
  refine ⟨hp, by rw [hp], by rw [hp]; simp, by rw [hp]; simp, by rw [hp]; simp, ?_⟩
  rw [hp]
  unfold handleConversation
  cases hcv : e.convResp with
  | none => exact ⟨fallbackGreeting, rfl⟩
  | some s => exact ⟨s, rfl⟩

/-- C7 witness: a concrete run classified as non-task. -/
theorem claim7_witness :
    process ⟨.ok (Json.obj [("isTask", Json.bool false), ("confidence", Json.num 1)]),
        .svcErr, none, some "Hi there!", 0⟩ ⟨[happyRecord], 1⟩
      = (.conv "Hi there!", ⟨[happyRecord], 1⟩, [.converse]) :=
  (claim7_non_task_frame
    ⟨.ok (Json.obj [("isTask", Json.bool false), ("confidence", Json.num 1)]),
     .svcErr, none, some "Hi there!", 0⟩ ⟨[happyRecord], 1⟩ (by decide)).1

/-- C8: getTasks returns exactly the stored records satisfying all the
supplied filter conditions, sorted by date ascending then creation time
descending; in particular with completed: true and a date range, only
completed records inside the range are returned. -/
theorem claim8_getTasks_filter_and_order (f : TaskFilters) (st : Store) :
    (getTasks f st).Perm (st.recs.filter (matchesFilters f)) ∧
    List.Sorted TaskRecOrder (getTasks f st) ∧
    (∀ r, r ∈ getTasks f st ↔ r ∈ st.recs ∧ matchesFilters f r = true) ∧
    (∀ d1 d2 r, r ∈ getTasks ⟨some true, some d1, some d2⟩ st →
       r.completed = true ∧ d1 ≤ r.date ∧ r.date ≤ d2) := by
  refine ⟨List.perm_insertionSort _ _, List.sorted_insertionSort _ _,
    fun r => ?_, fun d1 d2 r hr => ?_⟩
  · unfold getTasks
    rw [(List.perm_insertionSort _ _).mem_iff, List.mem_filter]
  · unfold getTasks at hr
    rw [(List.perm_insertionSort _ _).mem_iff, List.mem_filter] at hr
    have hm := hr.2
    unfold matchesFilters at hm
    simp only [Bool.and_eq_true, beq_iff_eq, decide_eq_true_eq] at hm
    exact ⟨hm.1.1, hm.1.2, hm.2⟩

/-- C8 witness: membership in a concrete filtered listing. -/
theorem claim8_witness :
    happyRecord ∈ getTasks ⟨some false, none, none⟩ ⟨[happyRecord], 1⟩ :=
  ((claim8_getTasks_filter_and_order ⟨some false, none, none⟩
      ⟨[happyRecord], 1⟩).2.2.1 happyRecord).mpr (by decide)

/-- C9: every record a successful insert persists has a non-empty title
within the schema length bound, completed false, and notes/advice
defaulted to the empty string when absent from the draft; inserts reject
invalid dates, updates reject invalid dates and empty titles, and insert,
update and delete all preserve the store's title invariant (dates are
valid by construction). -/
theorem claim9_store_invariants :
    (∀ nowMs st info rec st', saveTask nowMs st info = .ok (rec, st') →
       rec.title ≠ "" ∧ rec.title.length ≤ 200 ∧ rec.completed = false ∧
       st'.recs = st.recs ++ [rec] ∧
       (lookupField info.fields "notes" = none → rec.notes = "") ∧
       (lookupField info.fields "advice" = none → rec.advice = "")) ∧
    (∀ nowMs st info, info.date = .invalid →
       saveTask nowMs st info = .error saveErrorMessage) ∧
    (∀ nowMs st info rec st', GoodStore st → saveTask nowMs st info = .ok (rec, st') →
       GoodStore st') ∧
    (∀ st id u rec st', GoodStore st → updateTask st id u = .ok (rec, st') →
       GoodStore st') ∧
    (∀ st id u, u.date = some .invalid →
       updateTask st id u = .error "Failed to update task") ∧
    (∀ st id b st', GoodStore st → deleteTask st id = .ok (b, st') → GoodStore st') := by
  refine ⟨?_, ?_, ?_, ?_, ?_, ?_⟩
  · intro nowMs st info rec st' h
    obtain ⟨hrecs, _, _, _, hcomp, hemp, hlen, _, hnotes, hadvice⟩ := saveTask_ok_spec h
    refine ⟨hemp, hlen, hcomp, hrecs, fun hlk => ?_, fun hlk => ?_⟩
    · rw [hlk] at hnotes
      exact (Option.some.inj hnotes).symm
    · rw [hlk] at hadvice
      exact (Option.some.inj hadvice).symm
  · intro nowMs st info hd
    unfold saveTask
    rw [hd]
  · intro nowMs st info rec st' hg h
    obtain ⟨hrecs, _, _, _, _, hemp, hlen, _, _, _⟩ := saveTask_ok_spec h
    intro r hr
    rw [hrecs, List.mem_append] at hr
    rcases hr with hr | hr
    · exact hg r hr
    · rw [List.mem_singleton] at hr
      subst hr
      exact ⟨hemp, hlen⟩
  · intro st id u rec st' hg h
    obtain ⟨hv, hrecs, _, _, _⟩ := updateTaskInner_ok_spec (updateTask_ok_inner h)
    intro x hx
    rw [hrecs] at hx
    obtain ⟨y, hy, hxy⟩ := List.mem_map.mp hx
    by_cases hid : (y.id == id) = true
    · rw [if_pos hid] at hxy
      subst hxy
      exact applyUpdates_title hv (hg y hy)
    · rw [if_neg hid] at hxy
      subst hxy
      exact hg y hy
  · intro st id u hu
    have hv : validUpdates u = false := by
      unfold validUpdates
      rw [hu]
      simp
    unfold updateTask updateTaskInner
    rw [if_neg (by simp [hv])]
  · intro st id b st' hg h
    have hinner : deleteTaskInner st id = .ok (b, st') := by
      unfold deleteTask at h
      split at h
      · next x hx => cases h; exact hx
      · cases h
    unfold deleteTaskInner at hinner
    split at hinner
    · cases hinner
    · obtain ⟨h1, h2⟩ := by simpa using hinner
      subst h2
      intro r hr
      exact hg r (List.mem_filter.mp hr).1

/-- A draft with no notes and no advice field. -/
def draftNoNotes : ExtractedInfo :=
  ⟨[("title", Json.str "Call mom")], jsNewDate (some (Json.str "2026-01-20"))⟩

/-- The record draftNoNotes persists into an empty store at time 5. -/
def noNotesRecord : TaskRecord :=
  ⟨0, "Call mom", 1768867200000, "", "", false, 5⟩

/-- C9 witness: the insert invariants on a concrete draft without notes
or advice. -/
theorem claim9_witness :
    noNotesRecord.title ≠ "" ∧ noNotesRecord.title.length ≤ 200 ∧
    noNotesRecord.completed = false ∧
    (⟨[noNotesRecord], 1⟩ : Store).recs = (⟨[], 0⟩ : Store).recs ++ [noNotesRecord] ∧
    noNotesRecord.notes = "" ∧ noNotesRecord.advice = "" := by
  have h := claim9_store_invariants.1 5 ⟨[], 0⟩ draftNoNotes noNotesRecord
    ⟨[noNotesRecord], 1⟩ (by rfl)
  exact ⟨h.1, h.2.1, h.2.2.1, h.2.2.2.1, h.2.2.2.2.1 rfl, h.2.2.2.2.2 rfl⟩

/-- handleTask only reads the title, date and notes fields of the
extraction object (the advice field it wrote itself). -/
lemma handleTask_congr (e : Env) (st : Store) (fs1 fs2 : List (String × Json))
    (hx : e.extractResp = .ok (Json.obj fs1))
    (ht : lookupField fs1 "title" = lookupField fs2 "title")
    (hd : lookupField fs1 "date" = lookupField fs2 "date")
    (hn : lookupField fs1 "notes" = lookupField fs2 "notes") :
    handleTask ⟨e.classifyResp, .ok (Json.obj fs2), e.adviceResp, e.convResp, e.nowMs⟩ st
      = handleTask e st := by
  have hex1 : extractTaskInfo e = .ok ⟨fs1, jsNewDate (lookupField fs1 "date")⟩ := by
    unfold extractTaskInfo
    rw [hx]
    rfl
  have hex2 : extractTaskInfo
      ⟨e.classifyResp, .ok (Json.obj fs2), e.adviceResp, e.convResp, e.nowMs⟩
      = .ok ⟨fs2, jsNewDate (lookupField fs2 "date")⟩ := rfl
  have hga : generateAdvice
      ⟨e.classifyResp, .ok (Json.obj fs2), e.adviceResp, e.convResp, e.nowMs⟩
      = generateAdvice e := rfl
  unfold handleTask
  rw [hex1, hex2]
  dsimp only
  rw [hga]
  have hsv : saveTask e.nowMs st
      ⟨setField fs2 "advice" (Json.str (generateAdvice e)), jsNewDate (lookupField fs2 "date")⟩
      = saveTask e.nowMs st
      ⟨setField fs1 "advice" (Json.str (generateAdvice e)), jsNewDate (lookupField fs1 "date")⟩ := by
    rw [← hd]
    refine saveTask_fields_congr _ _ _ _ _ ?_ ?_ ?_
    · rw [lookupField_setField, lookupField_setField, if_neg (by decide), if_neg (by decide)]
      exact ht.symm
    · rw [lookupField_setField, lookupField_setField, if_neg (by decide), if_neg (by decide)]
      exact hn.symm
    · rw [lookupField_setField, lookupField_setField, if_pos rfl, if_pos rfl]
  rw [hsv]

/-- C10: two extraction replies that agree on their title, date and notes
fields produce identical persisted records and identical responses under
the same classification, advice and conversation outcomes — extra or
unknown fields of the extraction JSON never reach the store or the
caller. -/
theorem claim10_extra_fields_never_observable
    (e : Env) (st : Store) (fs1 fs2 : List (String × Json))
    (hx : e.extractResp = .ok (Json.obj fs1))
    (ht : lookupField fs1 "title" = lookupField fs2 "title")
    (hd : lookupField fs1 "date" = lookupField fs2 "date")
    (hn : lookupField fs1 "notes" = lookupField fs2 "notes") :
    process ⟨e.classifyResp, .ok (Json.obj fs2), e.adviceResp, e.convResp, e.nowMs⟩ st
      = process e st := by
  have hb2 : branchDecision
      ⟨e.classifyResp, .ok (Json.obj fs2), e.adviceResp, e.convResp, e.nowMs⟩
      = branchDecision e := rfl
  unfold process
  rw [hb2]
  cases hb : branchDecision e with
  | none => rfl
  | some b =>
    cases b with
    | false => rfl
    | true =>
      rw [handleTask_congr e st fs1 fs2 hx ht hd hn]

/-- An extraction object carrying an extra unknown field. -/
def fsWithJunk : List (String × Json) :=
  [("title", Json.str "A"), ("date", Json.str "2026-01-14"),
   ("notes", Json.str "n"), ("hidden", Json.num 7)]

/-- The same extraction object without the extra field. -/
def fsNoJunk : List (String × Json) :=
  [("title", Json.str "A"), ("date", Json.str "2026-01-14"), ("notes", Json.str "n")]

/-- C10 witness: dropping the unknown field leaves the whole run
unchanged. -/
theorem claim10_witness :
    process ⟨.ok (Json.obj [("isTask", Json.bool true)]), .ok (Json.obj fsNoJunk),
        some "tips", none, 0⟩ ⟨[], 0⟩
      = process ⟨.ok (Json.obj [("isTask", Json.bool true)]), .ok (Json.obj fsWithJunk),
        some "tips", none, 0⟩ ⟨[], 0⟩ :=
  claim10_extra_fields_never_observable
    ⟨.ok (Json.obj [("isTask", Json.bool true)]), .ok (Json.obj fsWithJunk),
     some "tips", none, 0⟩ ⟨[], 0⟩ fsWithJunk fsNoJunk rfl rfl rfl rfl

end TaskAssistant
